import Mathlib

/-!
Shallow embedding of the pendulum simulator.

Two source variants are embedded:
* the main variant `src/js/pendulum.js` (top-level names below), which knows
  about compound (uniform-rod) links, and
* the earlier variant `src/unnamed/part_000` (namespace `P0`), point-mass
  only, whose `getEnergy` still returns a `{kinetic, potential}` record and
  whose `computeAlphas` has a live torque term.

Conventions of the embedding:
* JavaScript numbers are modelled as real numbers `ℝ` (exact arithmetic).
* Array reads `a[i]` are modelled with `List.getD a i 0`; every theorem
  below only exercises in-bounds reads, where this agrees with the source
  (out of bounds, JavaScript would yield `undefined` and NaN arithmetic).
* Thrown exceptions are modelled with `Except String`.  `takeStep` can
  observably mutate `this` before an exception escapes, so it returns the
  mutated object together with an optional error:
  `Pendulum × Option String`.
* An optional argument that may be missing (`undefined`) is an `Option`.
-/

noncomputable section

def GRAVITY : ℝ := 9.81

def DENSITY : ℝ := 999.97

/-- The three recognized integration schemes (`INTEGRATION_METHODS`).
A configuration stores an `Option IntegrationMethod`; `none` models a value
that is none of the three objects (for example `null`, which the page
assigns when no radio button is checked). -/
inductive IntegrationMethod
  | forwardEuler
  | semiImplicitEuler
  | rungeKutta
deriving DecidableEq

/-- `numeric.solve` applied to the 2×2 system `A·x = b`, in exact real
arithmetic (for a nonsingular matrix the LU solve of `numeric.js` computes
exactly this; singular systems would give non-finite floats in JS and are
never reached by the theorems below). -/
def solve2 (a00 a01 a10 a11 b0 b1 : ℝ) : List ℝ :=
  [(b0 * a11 - b1 * a01) / (a00 * a11 - a01 * a10),
   (a00 * b1 - a10 * b0) / (a00 * a11 - a01 * a10)]

/-- Point-mass double-pendulum coefficient `A[0][0] = (m1 + m2) * ell1`
(identical in both source variants). -/
def pmA00 (m1 m2 ell1 : ℝ) : ℝ := (m1 + m2) * ell1

/-- Point-mass coefficient `A[0][1] = m2 * ell2 * cos(t1 - t2)`. -/
def pmA01 (m2 ell2 t1 t2 : ℝ) : ℝ := m2 * ell2 * Real.cos (t1 - t2)

/-- Point-mass right-hand side
`b[0] = -m2*ell2*w2*w2*sin(t1-t2) - GRAVITY*(m1+m2)*sin(t1)`. -/
def pmB0 (m1 m2 ell2 t1 t2 w2 : ℝ) : ℝ :=
  -m2 * ell2 * w2 * w2 * Real.sin (t1 - t2) - GRAVITY * (m1 + m2) * Real.sin t1

/-- Point-mass coefficient `A[1][0] = m2 * ell1 * cos(t1 - t2)`. -/
def pmA10 (m2 ell1 t1 t2 : ℝ) : ℝ := m2 * ell1 * Real.cos (t1 - t2)

/-- Point-mass coefficient `A[1][1] = m2 * ell2`. -/
def pmA11 (m2 ell2 : ℝ) : ℝ := m2 * ell2

/-- Point-mass right-hand side
`b[1] = m2*ell1*ell2*w1*w1*sin(t1-t2) - ell2*m2*GRAVITY*sin(t2)`. -/
def pmB1 (m2 ell1 ell2 t1 t2 w1 : ℝ) : ℝ :=
  m2 * ell1 * ell2 * w1 * w1 * Real.sin (t1 - t2) - ell2 * m2 * GRAVITY * Real.sin t2

/-- Compound coefficient `A[0][0] = (m1/3 + m2) * ell1` (pendulum.js only). -/
def cpA00 (m1 m2 ell1 : ℝ) : ℝ := (m1 / 3 + m2) * ell1

/-- Compound coefficient `A[0][1] = 0.5 * m2 * ell2 * cos(t1 - t2)`. -/
def cpA01 (m2 ell2 t1 t2 : ℝ) : ℝ := 0.5 * m2 * ell2 * Real.cos (t1 - t2)

/-- Compound right-hand side
`b[0] = -0.5*m2*ell2*w2*w2*sin(t1-t2) - (m1/2 + m2)*GRAVITY*sin(t1)`. -/
def cpB0 (m1 m2 ell2 t1 t2 w2 : ℝ) : ℝ :=
  -0.5 * m2 * ell2 * w2 * w2 * Real.sin (t1 - t2)
    - (m1 / 2 + m2) * GRAVITY * Real.sin t1

/-- Compound coefficient `A[1][0] = 0.5 * m2 * ell1 * cos(t1 - t2)`. -/
def cpA10 (m2 ell1 t1 t2 : ℝ) : ℝ := 0.5 * m2 * ell1 * Real.cos (t1 - t2)

/-- Compound coefficient `A[1][1] = (1/3) * m2 * ell2`. -/
def cpA11 (m2 ell2 : ℝ) : ℝ := (1 / 3) * m2 * ell2

/-- Compound right-hand side
`b[1] = 0.5*m2*ell1*w1*w1*sin(t1-t2) - 0.5*m2*GRAVITY*sin(t2)`. -/
def cpB1 (m2 ell1 t1 t2 w1 : ℝ) : ℝ :=
  0.5 * m2 * ell1 * w1 * w1 * Real.sin (t1 - t2) - 0.5 * m2 * GRAVITY * Real.sin t2

/-- In-place update of the first `n` entries of a JS array:
`for (i = 0; i < n; i++) xs[i] = f(i, xs[i])`, entered with the running
index already at `k`.  Entries at positions `≥ n` are left unchanged. -/
def stepMap (f : ℕ → ℝ → ℝ) (n : ℕ) : ℕ → List ℝ → List ℝ
  | _, [] => []
  | k, x :: xs => (if k < n then f k x else x) :: stepMap f n (k + 1) xs

/-- A JS array freshly built by pushing `f i` for `i = 0, …, n-1`. -/
def buildList (n : ℕ) (f : ℕ → ℝ) : List ℝ :=
  (List.range n).map f

/-- Loop body of `getCartesianPositions` (both variants): running sums
`sx += lengths[i]*sin(thetas[i]); sy -= lengths[i]*cos(thetas[i])`, pushing
the pair after each link.  The source loops `i` from `0` to `dimension - 1`
and `dimension` is set by the constructor to `lengths.length`, so the
embedding recurses on the `lengths` array (whose element at the loop index
is the head), carrying the loop index for the `thetas[i]` reads. -/
def posLoop (thetas : List ℝ) : List ℝ → ℕ → ℝ → ℝ → List (ℝ × ℝ)
  | [], _, _, _ => []
  | l :: rest, i, sx, sy =>
      let sx1 := sx + l * Real.sin (thetas.getD i 0)
      let sy1 := sy - l * Real.cos (thetas.getD i 0)
      (sx1, sy1) :: posLoop thetas rest (i + 1) sx1 sy1

/-- Loop body of the compound branch of `getCentersOfMass` (pendulum.js):
advance by half a link, record the midpoint, advance by the other half. -/
def comLoop (thetas : List ℝ) : List ℝ → ℕ → ℝ → ℝ → List (ℝ × ℝ)
  | [], _, _, _ => []
  | l :: rest, i, sx, sy =>
      let dsx := 0.5 * l * Real.sin (thetas.getD i 0)
      let dsy := 0.5 * l * Real.cos (thetas.getD i 0)
      (sx + dsx, sy - dsy) :: comLoop thetas rest (i + 1) (sx + dsx + dsx) (sy - dsy - dsy)

/-- Loop body of `getCartesianVelocities`.  With `compound = false` this is
exactly the loop of `part_000`; with the flag it is the pendulum.js loop
(`dvx /= 2` before accumulating, and a second accumulation after pushing).
As in `posLoop`, the loop bound `dimension` is realized by recursing on
`lengths`. -/
def velLoop (thetas omegas : List ℝ) (compound : Bool) :
    List ℝ → ℕ → ℝ → ℝ → List (ℝ × ℝ)
  | [], _, _, _ => []
  | l :: rest, i, vx, vy =>
      let dvx0 := l * Real.cos (thetas.getD i 0) * omegas.getD i 0
      let dvy0 := l * Real.sin (thetas.getD i 0) * omegas.getD i 0
      let dvx := if compound then dvx0 / 2 else dvx0
      let dvy := if compound then dvy0 / 2 else dvy0
      (vx + dvx, vy + dvy) ::
        velLoop thetas omegas compound rest (i + 1)
          (if compound then vx + dvx + dvx else vx + dvx)
          (if compound then vy + dvy + dvy else vy + dvy)

/-- The per-link radii derived in the pendulum.js constructor:
`_.each(_.zip(masses, lengths), …)` pushing, per pair, the cylinder radius
`sqrt(m / (PI * ell * DENSITY))` in the compound case and the sphere radius
`pow((3*m) / (4*PI*DENSITY), 1/3)` otherwise. -/
def radiiOf (compound : Bool) (masses lengths : List ℝ) : List ℝ :=
  (masses.zip lengths).map fun x =>
    if compound then Real.sqrt (x.1 / (Real.pi * x.2 * DENSITY))
    else (3 * x.1 / (4 * Real.pi * DENSITY)) ^ ((1 : ℝ) / 3)

/-- The `Pendulum` object of pendulum.js after construction.  `dimension`,
`radii` and `total_length` are stored fields computed by the constructor;
`time` is the only field other than `thetas`/`omegas` mutated later. -/
structure Pendulum where
  lengths : List ℝ
  masses : List ℝ
  thetas : List ℝ
  omegas : List ℝ
  integration_method : Option IntegrationMethod
  compound : Bool
  dimension : ℕ
  radii : List ℝ
  total_length : ℝ
  time : ℝ

/-- The pendulum.js constructor.  `im?` distinguishes an absent
`integration_method` option (`none`, in which case the semi-implicit default
is installed, since `_.isUndefined`) from a present value `some v`, where
`v : Option IntegrationMethod` may itself be `none` (e.g. `null`, which is
not undefined and therefore kept).  The length validation throws before any
derived field is computed.  (For empty input arrays the source sets
`total_length` to NaN via `radii[-1]`; the embedding uses `getD 0`, a
divergence no theorem below exercises.) -/
def mkPendulum (lengths masses thetas omegas : List ℝ)
    (im? : Option (Option IntegrationMethod)) (compound : Bool) :
    Except String Pendulum :=
  if lengths.length = masses.length ∧ masses.length = thetas.length
      ∧ thetas.length = omegas.length then
    .ok { lengths := lengths
          masses := masses
          thetas := thetas
          omegas := omegas
          integration_method := im?.getD (some .semiImplicitEuler)
          compound := compound
          dimension := lengths.length
          radii := radiiOf compound masses lengths
          total_length := lengths.sum + (radiiOf compound masses lengths).getLast?.getD 0
          time := 0 }
  else .error "All parameters must be arrays of the same length."

/-- `getCartesianPositions` of pendulum.js. -/
def Pendulum.getCartesianPositions (p : Pendulum) : List (ℝ × ℝ) :=
  posLoop p.thetas p.lengths 0 0 0

/-- `getCentersOfMass` of pendulum.js: tip positions unless compound, rod
midpoints when compound. -/
def Pendulum.getCentersOfMass (p : Pendulum) : List (ℝ × ℝ) :=
  if !p.compound then p.getCartesianPositions
  else comLoop p.thetas p.lengths 0 0 0

/-- `getCartesianVelocities` of pendulum.js. -/
def Pendulum.getCartesianVelocities (p : Pendulum) : List (ℝ × ℝ) :=
  velLoop p.thetas p.omegas p.compound p.lengths 0 0 0

/-- `getEnergyNames` of pendulum.js: all kinetic labels, then all potential
labels, then (if compound) all angular labels, then the total. -/
def Pendulum.getEnergyNames (p : Pendulum) : List String :=
  ((List.range p.dimension).map fun i => "Kinetic " ++ toString (i + 1))
    ++ ((List.range p.dimension).map fun i => "Potential " ++ toString (i + 1))
    ++ (if p.compound then
          (List.range p.dimension).map fun i => "Angular " ++ toString (i + 1)
        else [])
    ++ ["Total energy"]

/-- Loop body of `getEnergy` (pendulum.js): per link push kinetic then
potential (then the compound angular term, `len` being `lengths[i]`),
accumulating the running total, and finally push the total.  The loop bound
`dimension` is realized by recursing on `lengths`, as in `posLoop`. -/
def energyLoop (p : Pendulum) (pos vel : List (ℝ × ℝ)) : List ℝ → ℕ → ℝ → List ℝ
  | [], _, total => [total]
  | len :: rest, i, total =>
      let v := vel.getD i (0, 0)
      let t := 0.5 * p.masses.getD i 0 * (v.1 * v.1 + v.2 * v.2)
      let u := p.masses.getD i 0 * GRAVITY * (pos.getD i (0, 0)).2
      if p.compound then
        let w := p.omegas.getD i 0
        let a_t := (1 / 24) * p.masses.getD i 0 * len * len * w * w
        t :: u :: a_t :: energyLoop p pos vel rest (i + 1) (total + t + u + a_t)
      else
        t :: u :: energyLoop p pos vel rest (i + 1) (total + t + u)

/-- `getEnergy` of pendulum.js: a flat array, per link in link order, with
the grand total as last element. -/
def Pendulum.getEnergy (p : Pendulum) : List ℝ :=
  energyLoop p p.getCentersOfMass p.getCartesianVelocities p.lengths 0 0

/-- The kinetic term pushed for link `i` by `getEnergy`:
`0.5 * masses[i] * (vel[i][0]^2 + vel[i][1]^2)`. -/
def Pendulum.kineticTerm (p : Pendulum) (i : ℕ) : ℝ :=
  let v := p.getCartesianVelocities.getD i (0, 0)
  0.5 * p.masses.getD i 0 * (v.1 * v.1 + v.2 * v.2)

/-- The potential term pushed for link `i` by `getEnergy`:
`masses[i] * GRAVITY * pos[i][1]` with `pos` the centers of mass. -/
def Pendulum.potentialTerm (p : Pendulum) (i : ℕ) : ℝ :=
  p.masses.getD i 0 * GRAVITY * (p.getCentersOfMass.getD i (0, 0)).2

/-- `getTotalEnergy` of pendulum.js.  `getEnergy` returns a plain array,
but this function reads `energy.kinetic[i]` and `energy.potential[i]`: an
array has no `kinetic` or `potential` property, both property reads yield
`undefined`, and indexing `undefined` throws a TypeError on the first loop
iteration.  Only with `dimension = 0` does the loop body never run, so that
the initial accumulator `0` is returned. -/
def Pendulum.getTotalEnergy (p : Pendulum) : Except String ℝ :=
  if p.dimension = 0 then .ok 0
  else .error "TypeError: Cannot read properties of undefined"

/-- `computeAlphas` of pendulum.js.  The `torques` parameter is accepted but
never used: both torque blocks in the source are commented out. -/
def Pendulum.computeAlphas (p : Pendulum) (thetas omegas : List ℝ)
    (torques : Option ℝ) : Except String (List ℝ) :=
  if p.dimension = 1 then
    if p.compound then
      .ok [-(3 * GRAVITY) / (2 * p.lengths.getD 0 0) * Real.sin (thetas.getD 0 0)]
    else
      .ok [-GRAVITY / p.lengths.getD 0 0 * Real.sin (thetas.getD 0 0)]
  else if p.dimension = 2 then
    let m1 := p.masses.getD 0 0
    let m2 := p.masses.getD 1 0
    let t1 := thetas.getD 0 0
    let t2 := thetas.getD 1 0
    let w1 := omegas.getD 0 0
    let w2 := omegas.getD 1 0
    let ell1 := p.lengths.getD 0 0
    let ell2 := p.lengths.getD 1 0
    if p.compound then
      .ok (solve2 (cpA00 m1 m2 ell1) (cpA01 m2 ell2 t1 t2)
        (cpA10 m2 ell1 t1 t2) (cpA11 m2 ell2)
        (cpB0 m1 m2 ell2 t1 t2 w2) (cpB1 m2 ell1 t1 t2 w1))
    else
      .ok (solve2 (pmA00 m1 m2 ell1) (pmA01 m2 ell2 t1 t2)
        (pmA10 m2 ell1 t1 t2) (pmA11 m2 ell2)
        (pmB0 m1 m2 ell2 t1 t2 w2) (pmB1 m2 ell1 ell2 t1 t2 w1))
  else .error "Not implemented"

/-- Modelled from the spec and claim C3 wording: what each dimension-2
point-mass Dynamics Solver evaluation is claimed to compute when a torque
is supplied — the same 2×2 system with `torques[0]*(t1-t2)/ell1` added to
`b0` and `torques[0]*(t1-t2)/ell2` subtracted from `b1`.  Used only to
compare the claim against the source functions. -/
def specTorqueAdjustedAlphas (p : Pendulum) (thetas omegas : List ℝ) (tau : ℝ) :
    List ℝ :=
  let m1 := p.masses.getD 0 0
  let m2 := p.masses.getD 1 0
  let t1 := thetas.getD 0 0
  let t2 := thetas.getD 1 0
  let w1 := omegas.getD 0 0
  let w2 := omegas.getD 1 0
  let ell1 := p.lengths.getD 0 0
  let ell2 := p.lengths.getD 1 0
  solve2 (pmA00 m1 m2 ell1) (pmA01 m2 ell2 t1 t2)
    (pmA10 m2 ell1 t1 t2) (pmA11 m2 ell2)
    (pmB0 m1 m2 ell2 t1 t2 w2 + tau * (t1 - t2) / ell1)
    (pmB1 m2 ell1 ell2 t1 t2 w1 - tau * (t1 - t2) / ell2)

/-- `takeStep` of pendulum.js.  The source executes `this.time += dt`
before anything else; accordingly every branch of the result, including the
error branches (a `computeAlphas` throw escaping the method), carries the
updated time.  `torques` is passed on to every `computeAlphas` call. -/
def Pendulum.takeStep (p : Pendulum) (dt : ℝ) (torques : Option ℝ) :
    Pendulum × Option String :=
  match p.integration_method with
  | some .forwardEuler =>
    match p.computeAlphas p.thetas p.omegas torques with
    | .error e => ({ p with time := p.time + dt }, some e)
    | .ok alphas =>
      ({ p with
          time := p.time + dt
          thetas := stepMap (fun i th => th + p.omegas.getD i 0 * dt) alphas.length 0 p.thetas
          omegas := stepMap (fun i om => om + alphas.getD i 0 * dt) alphas.length 0 p.omegas },
       none)
  | some .semiImplicitEuler =>
    match p.computeAlphas p.thetas p.omegas torques with
    | .error e => ({ p with time := p.time + dt }, some e)
    | .ok alphas =>
      let omegas1 := stepMap (fun i om => om + alphas.getD i 0 * dt) alphas.length 0 p.omegas
      ({ p with
          time := p.time + dt
          thetas := stepMap (fun i th => th + omegas1.getD i 0 * dt) alphas.length 0 p.thetas
          omegas := omegas1 },
       none)
  | some .rungeKutta =>
    match p.computeAlphas p.thetas p.omegas torques with
    | .error e => ({ p with time := p.time + dt }, some e)
    | .ok alphas_k1 =>
      let omegas_k1 := p.omegas
      let thetas2 := buildList alphas_k1.length
        (fun i => p.thetas.getD i 0 + (dt / 2) * omegas_k1.getD i 0)
      let omegas_k2 := buildList alphas_k1.length
        (fun i => p.omegas.getD i 0 + (dt / 2) * alphas_k1.getD i 0)
      match p.computeAlphas thetas2 omegas_k2 torques with
      | .error e => ({ p with time := p.time + dt }, some e)
      | .ok alphas_k2 =>
        let thetas3 := stepMap
          (fun i _ => p.thetas.getD i 0 + (dt / 2) * omegas_k2.getD i 0)
          alphas_k2.length 0 thetas2
        let omegas_k3 := buildList alphas_k2.length
          (fun i => p.omegas.getD i 0 + (dt / 2) * alphas_k2.getD i 0)
        match p.computeAlphas thetas3 omegas_k3 torques with
        | .error e => ({ p with time := p.time + dt }, some e)
        | .ok alphas_k3 =>
          let thetas4 := stepMap
            (fun i _ => p.thetas.getD i 0 + dt * omegas_k3.getD i 0)
            alphas_k3.length 0 thetas3
          let omegas_k4 := buildList alphas_k3.length
            (fun i => p.omegas.getD i 0 + dt * alphas_k3.getD i 0)
          match p.computeAlphas thetas4 omegas_k4 torques with
          | .error e => ({ p with time := p.time + dt }, some e)
          | .ok alphas_k4 =>
            ({ p with
                time := p.time + dt
                thetas := stepMap (fun i th => th + (dt / 6) *
                    (omegas_k1.getD i 0 + 2 * omegas_k2.getD i 0
                      + 2 * omegas_k3.getD i 0 + omegas_k4.getD i 0))
                  p.dimension 0 p.thetas
                omegas := stepMap (fun i om => om + (dt / 6) *
                    (alphas_k1.getD i 0 + 2 * alphas_k2.getD i 0
                      + 2 * alphas_k3.getD i 0 + alphas_k4.getD i 0))
                  p.dimension 0 p.omegas },
             none)
  | none => ({ p with time := p.time + dt }, none)

/-- Well-formedness established by the constructor: the stored dimension is
the common length of the four per-link arrays. -/
def WF (p : Pendulum) : Prop :=
  p.dimension = p.lengths.length ∧ p.masses.length = p.lengths.length
    ∧ p.thetas.length = p.lengths.length ∧ p.omegas.length = p.lengths.length

namespace P0

/-- The `Pendulum` object of `part_000` (no `compound` option). -/
structure Pendulum where
  lengths : List ℝ
  masses : List ℝ
  thetas : List ℝ
  omegas : List ℝ
  integration_method : Option IntegrationMethod
  dimension : ℕ
  radii : List ℝ
  total_length : ℝ
  time : ℝ

/-- The `part_000` constructor: same validation, sphere radii only. -/
def mkPendulum (lengths masses thetas omegas : List ℝ)
    (im? : Option (Option IntegrationMethod)) : Except String Pendulum :=
  if lengths.length = masses.length ∧ masses.length = thetas.length
      ∧ thetas.length = omegas.length then
    .ok { lengths := lengths
          masses := masses
          thetas := thetas
          omegas := omegas
          integration_method := im?.getD (some .semiImplicitEuler)
          dimension := lengths.length
          radii := masses.map fun m => (3 * m / (4 * Real.pi * DENSITY)) ^ ((1 : ℝ) / 3)
          total_length := lengths.sum
            + (masses.map fun m => (3 * m / (4 * Real.pi * DENSITY)) ^ ((1 : ℝ) / 3)).getLast?.getD 0
          time := 0 }
  else .error "All parameters must be arrays of the same length."

/-- `getCartesianPositions` of `part_000` (same loop as pendulum.js). -/
def Pendulum.getCartesianPositions (p : Pendulum) : List (ℝ × ℝ) :=
  posLoop p.thetas p.lengths 0 0 0

/-- `getCartesianVelocities` of `part_000` (the pendulum.js loop without
the compound halving). -/
def Pendulum.getCartesianVelocities (p : Pendulum) : List (ℝ × ℝ) :=
  velLoop p.thetas p.omegas false p.lengths 0 0 0

/-- The `{kinetic: [], potential: []}` record returned by `part_000`'s
`getEnergy`. -/
structure Energy where
  kinetic : List ℝ
  potential : List ℝ

/-- `getEnergy` of `part_000`: pushes one kinetic and one potential entry
per link into the record. -/
def Pendulum.getEnergy (p : Pendulum) : Energy :=
  let pos := p.getCartesianPositions
  let vel := p.getCartesianVelocities
  { kinetic := (List.range p.dimension).map fun i =>
      let v := vel.getD i (0, 0)
      0.5 * p.masses.getD i 0 * (v.1 * v.1 + v.2 * v.2)
    potential := (List.range p.dimension).map fun i =>
      p.masses.getD i 0 * GRAVITY * (pos.getD i (0, 0)).2 }

/-- The summation loop of `part_000`'s `getTotalEnergy`:
`total += energy.kinetic[i] + energy.potential[i]` for `i < dimension`.
The `kinetic` array has exactly `dimension` entries, so the embedding
recurses on it, reading `potential` by index. -/
def sumLoop (ps : List ℝ) : List ℝ → ℕ → ℝ → ℝ
  | [], _, total => total
  | k :: ks, i, total => sumLoop ps ks (i + 1) (total + (k + ps.getD i 0))

/-- `getTotalEnergy` of `part_000` (here `getEnergy` really does return a
record with `kinetic` and `potential` arrays, so the function works). -/
def Pendulum.getTotalEnergy (p : Pendulum) : ℝ :=
  let energy := p.getEnergy
  sumLoop energy.potential energy.kinetic 0 0

/-- `computeAlphas` of `part_000`.  The torque block is live: when the
`torques` argument is an array (`some tau` here; an omitted argument is
`none`), `torques[0]*(t1-t2)/ell1` is added to `b[0]` and
`torques[0]*(t1-t2)/ell2` subtracted from `b[1]`. -/
def computeAlphas (p : Pendulum) (thetas omegas : List ℝ)
    (torques : Option ℝ) : Except String (List ℝ) :=
  if p.dimension = 1 then
    .ok [-GRAVITY / p.lengths.getD 0 0 * Real.sin (thetas.getD 0 0)]
  else if p.dimension = 2 then
    let m1 := p.masses.getD 0 0
    let m2 := p.masses.getD 1 0
    let t1 := thetas.getD 0 0
    let t2 := thetas.getD 1 0
    let w1 := omegas.getD 0 0
    let w2 := omegas.getD 1 0
    let ell1 := p.lengths.getD 0 0
    let ell2 := p.lengths.getD 1 0
    match torques with
    | some tau =>
      .ok (solve2 (pmA00 m1 m2 ell1) (pmA01 m2 ell2 t1 t2)
        (pmA10 m2 ell1 t1 t2) (pmA11 m2 ell2)
        (pmB0 m1 m2 ell2 t1 t2 w2 + tau * (t1 - t2) / ell1)
        (pmB1 m2 ell1 ell2 t1 t2 w1 - tau * (t1 - t2) / ell2))
    | none =>
      .ok (solve2 (pmA00 m1 m2 ell1) (pmA01 m2 ell2 t1 t2)
        (pmA10 m2 ell1 t1 t2) (pmA11 m2 ell2)
        (pmB0 m1 m2 ell2 t1 t2 w2) (pmB1 m2 ell1 ell2 t1 t2 w1))
  else .error "Not implemented"

/-- `takeStep` of `part_000`.  It accepts a `torques` argument but every
internal `computeAlphas` call omits it (the solver therefore sees
`undefined`, i.e. `none`): the supplied torque is dead.  As in pendulum.js,
`this.time += dt` runs first and survives an escaping exception. -/
def takeStep (p : Pendulum) (dt : ℝ) (torques : Option ℝ) :
    Pendulum × Option String :=
  match p.integration_method with
  | some .forwardEuler =>
    match computeAlphas p p.thetas p.omegas none with
    | .error e => ({ p with time := p.time + dt }, some e)
    | .ok alphas =>
      ({ p with
          time := p.time + dt
          thetas := stepMap (fun i th => th + p.omegas.getD i 0 * dt) alphas.length 0 p.thetas
          omegas := stepMap (fun i om => om + alphas.getD i 0 * dt) alphas.length 0 p.omegas },
       none)
  | some .semiImplicitEuler =>
    match computeAlphas p p.thetas p.omegas none with
    | .error e => ({ p with time := p.time + dt }, some e)
    | .ok alphas =>
      let omegas1 := stepMap (fun i om => om + alphas.getD i 0 * dt) alphas.length 0 p.omegas
      ({ p with
          time := p.time + dt
          thetas := stepMap (fun i th => th + omegas1.getD i 0 * dt) alphas.length 0 p.thetas
          omegas := omegas1 },
       none)
  | some .rungeKutta =>
    match computeAlphas p p.thetas p.omegas none with
    | .error e => ({ p with time := p.time + dt }, some e)
    | .ok alphas_k1 =>
      let omegas_k1 := p.omegas
      let thetas2 := buildList alphas_k1.length
        (fun i => p.thetas.getD i 0 + (dt / 2) * omegas_k1.getD i 0)
      let omegas_k2 := buildList alphas_k1.length
        (fun i => p.omegas.getD i 0 + (dt / 2) * alphas_k1.getD i 0)
      match computeAlphas p thetas2 omegas_k2 none with
      | .error e => ({ p with time := p.time + dt }, some e)
      | .ok alphas_k2 =>
        let thetas3 := stepMap
          (fun i _ => p.thetas.getD i 0 + (dt / 2) * omegas_k2.getD i 0)
          alphas_k2.length 0 thetas2
        let omegas_k3 := buildList alphas_k2.length
          (fun i => p.omegas.getD i 0 + (dt / 2) * alphas_k2.getD i 0)
        match computeAlphas p thetas3 omegas_k3 none with
        | .error e => ({ p with time := p.time + dt }, some e)
        | .ok alphas_k3 =>
          let thetas4 := stepMap
            (fun i _ => p.thetas.getD i 0 + dt * omegas_k3.getD i 0)
            alphas_k3.length 0 thetas3
          let omegas_k4 := buildList alphas_k3.length
            (fun i => p.omegas.getD i 0 + dt * alphas_k3.getD i 0)
          match computeAlphas p thetas4 omegas_k4 none with
          | .error e => ({ p with time := p.time + dt }, some e)
          | .ok alphas_k4 =>
            ({ p with
                time := p.time + dt
                thetas := stepMap (fun i th => th + (dt / 6) *
                    (omegas_k1.getD i 0 + 2 * omegas_k2.getD i 0
                      + 2 * omegas_k3.getD i 0 + omegas_k4.getD i 0))
                  p.dimension 0 p.thetas
                omegas := stepMap (fun i om => om + (dt / 6) *
                    (alphas_k1.getD i 0 + 2 * alphas_k2.getD i 0
                      + 2 * alphas_k3.getD i 0 + alphas_k4.getD i 0))
                  p.dimension 0 p.omegas },
             none)
  | none => ({ p with time := p.time + dt }, none)

end P0

/-- The single point-mass pendulum of the spec's closed-form check:
length 1 m, mass 2 kg, theta = pi/2, omega = 0, semi-implicit Euler
(the constructor default).  Field values are written exactly as
`mkPendulum` computes them, so `mkPendulum … = .ok pSemi` holds by `rfl`. -/
def pSemi : Pendulum :=
  { lengths := [1]
    masses := [2]
    thetas := [Real.pi / 2]
    omegas := [0]
    integration_method := some .semiImplicitEuler
    compound := false
    dimension := ([1] : List ℝ).length
    radii := radiiOf false [2] [1]
    total_length := ([1] : List ℝ).sum + (radiiOf false [2] [1]).getLast?.getD 0
    time := 0 }

/-- The compound configuration of the spec's radius check: one uniform rod,
length 1.2 m, mass 40 kg. -/
def pComp : Pendulum :=
  { lengths := [1.2]
    masses := [40]
    thetas := [0]
    omegas := [0]
    integration_method := some .semiImplicitEuler
    compound := true
    dimension := ([1.2] : List ℝ).length
    radii := radiiOf true [40] [1.2]
    total_length := ([1.2] : List ℝ).sum + (radiiOf true [40] [1.2]).getLast?.getD 0
    time := 0 }

/-- A validly constructed three-link configuration (construction succeeds;
the dimension limit only bites at the first dynamics evaluation). -/
def p3 : Pendulum :=
  { lengths := [1, 1, 1]
    masses := [2, 2, 2]
    thetas := [0, 0, 0]
    omegas := [0, 0, 0]
    integration_method := some .semiImplicitEuler
    compound := false
    dimension := ([1, 1, 1] : List ℝ).length
    radii := radiiOf false [2, 2, 2] [1, 1, 1]
    total_length := ([1, 1, 1] : List ℝ).sum
      + (radiiOf false [2, 2, 2] [1, 1, 1]).getLast?.getD 0
    time := 0 }

/-- A point-mass double pendulum at rest, both links hanging straight down
(`thetas = [0, 0]`), used for the energy-label check. -/
def p4 : Pendulum :=
  { lengths := [1, 1]
    masses := [1, 1]
    thetas := [0, 0]
    omegas := [0, 0]
    integration_method := some .semiImplicitEuler
    compound := false
    dimension := ([1, 1] : List ℝ).length
    radii := radiiOf false [1, 1] [1, 1]
    total_length := ([1, 1] : List ℝ).sum + (radiiOf false [1, 1] [1, 1]).getLast?.getD 0
    time := 0 }

/-- A point-mass double pendulum with `thetas = [pi/2, 0]` (so
`t1 - t2 = pi/2` and a supplied torque, were it applied, would shift the
right-hand side), at rest. -/
def qjs : Pendulum :=
  { lengths := [1, 1]
    masses := [1, 1]
    thetas := [Real.pi / 2, 0]
    omegas := [0, 0]
    integration_method := some .semiImplicitEuler
    compound := false
    dimension := ([1, 1] : List ℝ).length
    radii := radiiOf false [1, 1] [1, 1]
    total_length := ([1, 1] : List ℝ).sum + (radiiOf false [1, 1] [1, 1]).getLast?.getD 0
    time := 0 }

/-- A configuration constructed with `integration_method: null` — present,
hence the default is not installed, but equal to none of the three
recognized schemes. -/
def pNull : Pendulum :=
  { lengths := [1]
    masses := [1]
    thetas := [0]
    omegas := [0]
    integration_method := none
    compound := false
    dimension := ([1] : List ℝ).length
    radii := radiiOf false [1] [1]
    total_length := ([1] : List ℝ).sum + (radiiOf false [1] [1]).getLast?.getD 0
    time := 0 }

/-- The `part_000` analogue of `qjs`: double pendulum, `thetas = [pi/2, 0]`,
at rest. -/
def q0 : P0.Pendulum :=
  { lengths := [1, 1]
    masses := [1, 1]
    thetas := [Real.pi / 2, 0]
    omegas := [0, 0]
    integration_method := some .semiImplicitEuler
    dimension := ([1, 1] : List ℝ).length
    radii := ([1, 1] : List ℝ).map fun m => (3 * m / (4 * Real.pi * DENSITY)) ^ ((1 : ℝ) / 3)
    total_length := ([1, 1] : List ℝ).sum
      + (([1, 1] : List ℝ).map fun m => (3 * m / (4 * Real.pi * DENSITY)) ^ ((1 : ℝ) / 3)).getLast?.getD 0
    time := 0 }

/-- A `part_000` single pendulum, length 1 m, mass 2 kg, hanging straight
down with angular velocity 3 rad/s (so both energy components are
nonzero). -/
def q1 : P0.Pendulum :=
  { lengths := [1]
    masses := [2]
    thetas := [0]
    omegas := [3]
    integration_method := some .semiImplicitEuler
    dimension := ([1] : List ℝ).length
    radii := ([2] : List ℝ).map fun m => (3 * m / (4 * Real.pi * DENSITY)) ^ ((1 : ℝ) / 3)
    total_length := ([1] : List ℝ).sum
      + (([2] : List ℝ).map fun m => (3 * m / (4 * Real.pi * DENSITY)) ^ ((1 : ℝ) / 3)).getLast?.getD 0
    time := 0 }

/-! ### Helper lemmas about the loop combinators and the solver -/

theorem stepMap_eq_self (f : ℕ → ℝ → ℝ) (n : ℕ) (h : ∀ i x, f i x = x) :
    ∀ (k : ℕ) (xs : List ℝ), stepMap f n k xs = xs := by
  intro k xs
  induction xs generalizing k with
  | nil => rfl
  | cons x xs ih => simp [stepMap, h, ih]

theorem stepMap_length (f : ℕ → ℝ → ℝ) (n : ℕ) :
    ∀ (k : ℕ) (xs : List ℝ), (stepMap f n k xs).length = xs.length := by
  intro k xs
  induction xs generalizing k with
  | nil => rfl
  | cons x xs ih => simp [stepMap, ih]

theorem stepMap_getD (f : ℕ → ℝ → ℝ) (n : ℕ) :
    ∀ (xs : List ℝ) (k i : ℕ),
      (stepMap f n k xs).getD i 0
        = if k + i < n ∧ i < xs.length then f (k + i) (xs.getD i 0)
          else xs.getD i 0 := by
  intro xs
  induction xs with
  | nil => intro k i; simp [stepMap]
  | cons x xs ih =>
      intro k i
      cases i with
      | zero => by_cases hk : k < n <;> simp [stepMap, hk]
      | succ i =>
          have h1 : k + (i + 1) = (k + 1) + i := by omega
          simp only [stepMap, List.getD_cons_succ, List.length_cons, h1,
            add_lt_add_iff_right]
          exact ih (k + 1) i

theorem stepMap_getD_self (f : ℕ → ℝ → ℝ) (n : ℕ) (xs : List ℝ)
    (h : ∀ i, i < n → i < xs.length → f i (xs.getD i 0) = xs.getD i 0) :
    stepMap f n 0 xs = xs := by
  apply List.ext_getElem (stepMap_length f n 0 xs)
  intro i h1 h2
  rw [← List.getD_eq_getElem _ 0 h1, ← List.getD_eq_getElem _ 0 h2, stepMap_getD]
  simp only [Nat.zero_add]
  by_cases hc : i < n ∧ i < xs.length
  · rw [if_pos hc]; exact h i hc.1 hc.2
  · rw [if_neg hc]

theorem buildList_eq_of (n : ℕ) (f : ℕ → ℝ) (xs : List ℝ) (hn : n = xs.length)
    (h : ∀ i, i < n → f i = xs.getD i 0) : buildList n f = xs := by
  apply List.ext_getElem (by simp [buildList, hn])
  intro i h1 h2
  have hi : i < n := by simpa [buildList] using h1
  rw [← List.getD_eq_getElem xs 0 h2, ← h i hi]
  simp [buildList]

theorem computeAlphas_not_implemented (p : Pendulum) (th om : List ℝ)
    (τ : Option ℝ) (h1 : p.dimension ≠ 1) (h2 : p.dimension ≠ 2) :
    p.computeAlphas th om τ = .error "Not implemented" := by
  simp [Pendulum.computeAlphas, h1, h2]

theorem computeAlphas_ok (p : Pendulum) (th om : List ℝ) (τ : Option ℝ)
    (hd : p.dimension = 1 ∨ p.dimension = 2) :
    ∃ as, p.computeAlphas th om τ = .ok as ∧ as.length = p.dimension := by
  rcases hd with h | h <;> by_cases hc : p.compound <;>
    simp [Pendulum.computeAlphas, h, hc, solve2]

theorem computeAlphas_ok_length (p : Pendulum) (th om : List ℝ) (τ : Option ℝ)
    (as : List ℝ) (h : p.computeAlphas th om τ = .ok as) :
    as.length = p.dimension := by
  by_cases h1 : p.dimension = 1
  · obtain ⟨bs, hb, hl⟩ := computeAlphas_ok p th om τ (Or.inl h1)
    rw [h] at hb
    injection hb with hb
    rw [hb]; exact hl
  · by_cases h2 : p.dimension = 2
    · obtain ⟨bs, hb, hl⟩ := computeAlphas_ok p th om τ (Or.inr h2)
      rw [h] at hb
      injection hb with hb
      rw [hb]; exact hl
    · rw [computeAlphas_not_implemented p th om τ h1 h2] at h
      exact absurd h (by simp)

theorem radiiOf_getD (c : Bool) (ms ls : List ℝ) (i : ℕ)
    (h1 : i < ms.length) (h2 : i < ls.length) :
    (radiiOf c ms ls).getD i 0
      = if c then Real.sqrt (ms.getD i 0 / (Real.pi * ls.getD i 0 * DENSITY))
        else (3 * ms.getD i 0 / (4 * Real.pi * DENSITY)) ^ ((1 : ℝ) / 3) := by
  induction ms generalizing ls i with
  | nil => exact absurd h1 (by simp)
  | cons m ms ih =>
      cases ls with
      | nil => exact absurd h2 (by simp)
      | cons l ls =>
          cases i with
          | zero => simp [radiiOf]
          | succ i =>
              have := ih ls i (by simpa using h1) (by simpa using h2)
              simpa [radiiOf] using this

/-! ### Claim theorems -/

/-- C6: `computeAlphas` fails with the unsupported-dimension error exactly
when the stored `dimension` is outside `{1, 2}` (regardless of the state or
torque it is evaluated at), and for dimension 1 or 2 — in particular with
positive lengths and masses — it returns `.ok` with one angular
acceleration per link. -/
theorem c6_dimension_error_iff (p : Pendulum) (th om : List ℝ) (τ : Option ℝ) :
    ((∃ e, p.computeAlphas th om τ = .error e) ↔
      p.dimension ≠ 1 ∧ p.dimension ≠ 2) ∧
    ((p.dimension = 1 ∨ p.dimension = 2) →
      (∀ l ∈ p.lengths, 0 < l) → (∀ m ∈ p.masses, 0 < m) →
      ∃ as, p.computeAlphas th om τ = .ok as ∧ as.length = p.dimension) := by
  constructor
  · constructor
    · rintro ⟨e, he⟩
      by_cases h1 : p.dimension = 1
      · obtain ⟨as, ha, -⟩ := computeAlphas_ok p th om τ (Or.inl h1)
        rw [ha] at he
        exact absurd he (by simp)
      · by_cases h2 : p.dimension = 2
        · obtain ⟨as, ha, -⟩ := computeAlphas_ok p th om τ (Or.inr h2)
          rw [ha] at he
          exact absurd he (by simp)
        · exact ⟨h1, h2⟩
    · rintro ⟨h1, h2⟩
      exact ⟨_, computeAlphas_not_implemented p th om τ h1 h2⟩
  · intro hd _ _
    exact computeAlphas_ok p th om τ hd

/-- C6 witness: the three-link configuration fails (dimension 3), while the
one-link configuration (positive length and mass) yields exactly one
acceleration. -/
theorem c6_dimension_witness :
    (∃ e, Pendulum.computeAlphas p3 p3.thetas p3.omegas none = .error e) ∧
    (∃ as, Pendulum.computeAlphas pSemi pSemi.thetas pSemi.omegas none = .ok as
      ∧ as.length = 1) := by
  constructor
  · exact (c6_dimension_error_iff p3 p3.thetas p3.omegas none).1.mpr
      ⟨by simp [p3], by simp [p3]⟩
  · obtain ⟨as, ha, hl⟩ := (c6_dimension_error_iff pSemi pSemi.thetas pSemi.omegas none).2
      (Or.inl rfl)
      (by intro l hl; simp [pSemi] at hl; rw [hl]; norm_num)
      (by intro m hm; simp [pSemi] at hm; rw [hm]; norm_num)
    exact ⟨as, ha, hl.trans rfl⟩

/-- C7: construction throws the validation error exactly when the four
per-link arrays do not share one common length (in the `Except` model a
failed construction yields no `Pendulum` value at all); a three-link
construction succeeds, and the dimension limit only bites at the first
dynamics evaluation. -/
theorem c7_construction_validation :
    (∀ (ls ms ts os : List ℝ) (im : Option (Option IntegrationMethod)) (c : Bool),
      (∃ e, mkPendulum ls ms ts os im c = .error e) ↔
        ¬(ls.length = ms.length ∧ ms.length = ts.length ∧ ts.length = os.length)) ∧
    (mkPendulum [1, 1, 1] [2, 2, 2] [0, 0, 0] [0, 0, 0] none false = .ok p3 ∧
      Pendulum.computeAlphas p3 p3.thetas p3.omegas none = .error "Not implemented") := by
  refine ⟨?_, rfl, rfl⟩
  intro ls ms ts os im c
  by_cases h : ls.length = ms.length ∧ ms.length = ts.length ∧ ts.length = os.length
  · simp [mkPendulum, h]
  · simp [mkPendulum, h]

/-- C7 witness: a mismatched construction (two lengths, one mass) fails,
and an all-equal-lengths construction does not fail. -/
theorem c7_construction_witness :
    (∃ e, mkPendulum [1, 1] [1] [1] [1] none false = .error e) ∧
    ¬(∃ e, mkPendulum [1] [1] [1] [1] none false = .error e) := by
  constructor
  · exact (c7_construction_validation.1 [1, 1] [1] [1] [1] none false).mpr (by simp)
  · intro h
    have := (c7_construction_validation.1 [1] [1] [1] [1] none false).mp h
    simp at this

/-- C9: for every successful construction, the radius stored for link `i`
is the compound cylinder radius `sqrt(m / (pi * l * DENSITY))` when
`compound`, and the point-mass sphere radius
`(3m / (4 * pi * DENSITY))^(1/3)` otherwise. -/
theorem c9_radius_formulas (ls ms ts os : List ℝ)
    (im : Option (Option IntegrationMethod)) (c : Bool) (p : Pendulum)
    (h : mkPendulum ls ms ts os im c = .ok p) (i : ℕ) (hi : i < ls.length) :
    p.radii.getD i 0
      = if c then Real.sqrt (ms.getD i 0 / (Real.pi * ls.getD i 0 * DENSITY))
        else (3 * ms.getD i 0 / (4 * Real.pi * DENSITY)) ^ ((1 : ℝ) / 3) := by
  by_cases hv : ls.length = ms.length ∧ ms.length = ts.length ∧ ts.length = os.length
  · rw [mkPendulum, if_pos hv] at h
    injection h with h
    subst h
    exact radiiOf_getD c ms ls i (hv.1 ▸ hi) hi
  · rw [mkPendulum, if_neg hv] at h
    exact absurd h (by simp)

/-- C9 witness: the point-mass radius for mass 2 kg and the compound radius
for mass 40 kg, length 1.2 m match the closed forms of the spec. -/
theorem c9_radius_witness :
    pSemi.radii.getD 0 0 = (3 * 2 / (4 * Real.pi * 999.97)) ^ ((1 : ℝ) / 3) ∧
    pComp.radii.getD 0 0 = Real.sqrt (40 / (Real.pi * 1.2 * 999.97)) := by
  constructor
  · have h := c9_radius_formulas [1] [2] [Real.pi / 2] [0] none false pSemi rfl 0
      (by norm_num)
    rw [h]
    norm_num [DENSITY]
  · have h := c9_radius_formulas [1.2] [40] [0] [0] none true pComp rfl 0
      (by norm_num)
    rw [h]
    norm_num [DENSITY]

/-- C10 (implicit claim): if the stored integration method is none of the
three recognized schemes, `takeStep` raises no error and leaves every theta
and omega unchanged, yet still advances time by `dt`. -/
theorem c10_null_method_step (p : Pendulum) (dt : ℝ) (τ : Option ℝ)
    (hm : p.integration_method = none) :
    (p.takeStep dt τ).2 = none ∧
    (p.takeStep dt τ).1.thetas = p.thetas ∧
    (p.takeStep dt τ).1.omegas = p.omegas ∧
    (p.takeStep dt τ).1.time = p.time + dt := by
  simp [Pendulum.takeStep, hm]

/-- C10 witness: the `null`-method configuration takes a no-op step whose
only effect is `time += dt`. -/
theorem c10_null_method_witness :
    (pNull.takeStep 0.25 none).2 = none ∧
    (pNull.takeStep 0.25 none).1.thetas = pNull.thetas ∧
    (pNull.takeStep 0.25 none).1.omegas = pNull.omegas ∧
    (pNull.takeStep 0.25 none).1.time = pNull.time + 0.25 :=
  c10_null_method_step pNull 0.25 none rfl

/-- C1: with the semi-implicit Euler method, one step succeeds, advances
time by `dt`, and updates, per link, first `omega += alpha * dt` (with the
alphas computed at the committed state) and then
`theta += (updated omega) * dt`. -/
theorem c1_semi_implicit_step (p : Pendulum) (dt : ℝ) (τ : Option ℝ)
    (as : List ℝ) (hw : WF p)
    (hm : p.integration_method = some .semiImplicitEuler)
    (ha : p.computeAlphas p.thetas p.omegas τ = .ok as) :
    (p.takeStep dt τ).2 = none ∧
    (p.takeStep dt τ).1.time = p.time + dt ∧
    ∀ i, i < p.dimension →
      (p.takeStep dt τ).1.omegas.getD i 0
        = p.omegas.getD i 0 + as.getD i 0 * dt ∧
      (p.takeStep dt τ).1.thetas.getD i 0
        = p.thetas.getD i 0 + (p.omegas.getD i 0 + as.getD i 0 * dt) * dt := by
  have hlen := computeAlphas_ok_length p p.thetas p.omegas τ as ha
  have h2 : (p.takeStep dt τ).2 = none := by
    simp [Pendulum.takeStep, hm, ha]
  have homegas : (p.takeStep dt τ).1.omegas
      = stepMap (fun i om => om + as.getD i 0 * dt) as.length 0 p.omegas := by
    simp [Pendulum.takeStep, hm, ha]
  have hthetas : (p.takeStep dt τ).1.thetas
      = stepMap (fun i th =>
          th + (stepMap (fun j om => om + as.getD j 0 * dt) as.length 0 p.omegas).getD i 0 * dt)
        as.length 0 p.thetas := by
    simp [Pendulum.takeStep, hm, ha]
  have htime : (p.takeStep dt τ).1.time = p.time + dt := by
    simp [Pendulum.takeStep, hm, ha]
  refine ⟨h2, htime, ?_⟩
  intro i hi
  have e2 : p.omegas.length = p.lengths.length := hw.2.2.2
  have e3 : p.thetas.length = p.lengths.length := hw.2.2.1
  have e4 : p.dimension = p.lengths.length := hw.1
  have hia : 0 + i < as.length ∧ i < p.omegas.length := by omega
  have hib : 0 + i < as.length ∧ i < p.thetas.length := by omega
  constructor
  · rw [homegas, stepMap_getD, if_pos hia]
    simp
  · rw [hthetas, stepMap_getD, if_pos hib]
    simp only [Nat.zero_add]
    rw [stepMap_getD, if_pos hia]
    simp

/-- C1 witness: for the single point-mass pendulum with length 1, mass 2,
theta = pi/2, omega = 0 and dt = 0.005 under semi-implicit Euler, one step
computes `alpha = -9.81`, `omega = -0.04905` and
`theta = pi/2 - 0.00024525`, exactly. -/
theorem c1_semi_implicit_witness :
    Pendulum.computeAlphas pSemi pSemi.thetas pSemi.omegas none = .ok [-9.81] ∧
    (pSemi.takeStep 0.005 none).2 = none ∧
    (pSemi.takeStep 0.005 none).1.omegas.getD 0 0 = -0.04905 ∧
    (pSemi.takeStep 0.005 none).1.thetas.getD 0 0 = Real.pi / 2 - 0.00024525 := by
  have ha : Pendulum.computeAlphas pSemi pSemi.thetas pSemi.omegas none
      = .ok [-9.81] := by
    simp [Pendulum.computeAlphas, pSemi, GRAVITY, Real.sin_pi_div_two]
  have hwf : WF pSemi := ⟨rfl, rfl, rfl, rfl⟩
  obtain ⟨hs2, htime, hel⟩ :=
    c1_semi_implicit_step pSemi 0.005 none [-9.81] hwf rfl ha
  have h0 := hel 0 (by norm_num [pSemi])
  refine ⟨ha, hs2, ?_, ?_⟩
  · rw [h0.1]
    norm_num [pSemi]
  · rw [h0.2]
    norm_num [pSemi]
    ring

/-- C2 (amended): when a step's dynamics evaluation throws (recognized
method, dimension outside `{1, 2}`), the error escapes `takeStep` with
`thetas` and `omegas` untouched, but `time` has already been advanced by
`dt`, because `this.time += dt` runs before the dynamics evaluation. -/
theorem c2_failed_step_state (p : Pendulum) (dt : ℝ) (τ : Option ℝ)
    (m : IntegrationMethod) (hm : p.integration_method = some m)
    (h1 : p.dimension ≠ 1) (h2 : p.dimension ≠ 2) :
    (p.takeStep dt τ).2 = some "Not implemented" ∧
    (p.takeStep dt τ).1.thetas = p.thetas ∧
    (p.takeStep dt τ).1.omegas = p.omegas ∧
    (p.takeStep dt τ).1.time = p.time + dt := by
  have ha := computeAlphas_not_implemented p p.thetas p.omegas τ h1 h2
  cases m <;> simp [Pendulum.takeStep, hm, ha]

/-- C2 witness: the three-link configuration's failed step keeps its angles
and angular velocities but still advances time. -/
theorem c2_failed_step_witness :
    (p3.takeStep 1 none).2 = some "Not implemented" ∧
    (p3.takeStep 1 none).1.thetas = p3.thetas ∧
    (p3.takeStep 1 none).1.omegas = p3.omegas ∧
    (p3.takeStep 1 none).1.time = p3.time + 1 :=
  c2_failed_step_state p3 1 none .semiImplicitEuler rfl (by simp [p3])
    (by simp [p3])

/-- C2 counterexample: a failed step does not leave the mutable state
entirely unchanged — on the three-link configuration (time 0) the failing
`takeStep` with `dt = 0.005` reports the error yet leaves `time = 0.005`,
not `0`. -/
theorem c2_time_mutated_counterexample :
    (p3.takeStep 0.005 none).2 = some "Not implemented" ∧
    p3.time = 0 ∧
    (p3.takeStep 0.005 none).1.time = 0.005 ∧
    (0.005 : ℝ) ≠ 0 := by
  have hm : p3.integration_method = some .semiImplicitEuler := rfl
  have ha : Pendulum.computeAlphas p3 p3.thetas p3.omegas none
      = .error "Not implemented" := rfl
  have ht : p3.time = 0 := rfl
  refine ⟨?_, rfl, ?_, by norm_num⟩
  · simp [Pendulum.takeStep, hm, ha]
  · simp [Pendulum.takeStep, hm, ha, ht]

/-- C3 (amended): in pendulum.js, `takeStep` hands its torque argument to
every solver evaluation but `computeAlphas` ignores it entirely (its torque
block is commented out); in `part_000`, `computeAlphas` does apply the
claimed `b0`/`b1` adjustment when given a torque, but `takeStep` never
forwards its torque argument, so in neither variant does a supplied torque
affect a step. -/
theorem c3_torque_plumbing :
    (∀ (p : Pendulum) (th om : List ℝ) (τ : Option ℝ),
      p.computeAlphas th om τ = p.computeAlphas th om none) ∧
    (∀ (p : P0.Pendulum) (dt : ℝ) (τ : Option ℝ),
      P0.takeStep p dt τ = P0.takeStep p dt none) ∧
    (∀ (p : P0.Pendulum) (th om : List ℝ) (tau : ℝ), p.dimension = 2 →
      P0.computeAlphas p th om (some tau)
        = .ok (solve2
            (pmA00 (p.masses.getD 0 0) (p.masses.getD 1 0) (p.lengths.getD 0 0))
            (pmA01 (p.masses.getD 1 0) (p.lengths.getD 1 0) (th.getD 0 0) (th.getD 1 0))
            (pmA10 (p.masses.getD 1 0) (p.lengths.getD 0 0) (th.getD 0 0) (th.getD 1 0))
            (pmA11 (p.masses.getD 1 0) (p.lengths.getD 1 0))
            (pmB0 (p.masses.getD 0 0) (p.masses.getD 1 0) (p.lengths.getD 1 0)
              (th.getD 0 0) (th.getD 1 0) (om.getD 1 0)
              + tau * (th.getD 0 0 - th.getD 1 0) / p.lengths.getD 0 0)
            (pmB1 (p.masses.getD 1 0) (p.lengths.getD 0 0) (p.lengths.getD 1 0)
              (th.getD 0 0) (th.getD 1 0) (om.getD 0 0)
              - tau * (th.getD 0 0 - th.getD 1 0) / p.lengths.getD 1 0)) ∧
      P0.computeAlphas p th om none
        = .ok (solve2
            (pmA00 (p.masses.getD 0 0) (p.masses.getD 1 0) (p.lengths.getD 0 0))
            (pmA01 (p.masses.getD 1 0) (p.lengths.getD 1 0) (th.getD 0 0) (th.getD 1 0))
            (pmA10 (p.masses.getD 1 0) (p.lengths.getD 0 0) (th.getD 0 0) (th.getD 1 0))
            (pmA11 (p.masses.getD 1 0) (p.lengths.getD 1 0))
            (pmB0 (p.masses.getD 0 0) (p.masses.getD 1 0) (p.lengths.getD 1 0)
              (th.getD 0 0) (th.getD 1 0) (om.getD 1 0))
            (pmB1 (p.masses.getD 1 0) (p.lengths.getD 0 0) (p.lengths.getD 1 0)
              (th.getD 0 0) (th.getD 1 0) (om.getD 0 0)))) := by
  refine ⟨fun p th om τ => rfl, fun p dt τ => rfl, fun p th om tau h2 => ?_⟩
  constructor <;> simp [P0.computeAlphas, h2]

/-- C3 witness: the plumbing facts at concrete configurations — pendulum.js
solver output is torque-independent, a `part_000` step is
torque-independent, and the `part_000` solver applies the `b`-adjustment
when handed a torque directly. -/
theorem c3_torque_witness :
    Pendulum.computeAlphas pSemi pSemi.thetas pSemi.omegas (some 2)
      = Pendulum.computeAlphas pSemi pSemi.thetas pSemi.omegas none ∧
    P0.takeStep q0 1 (some 2) = P0.takeStep q0 1 none ∧
    P0.computeAlphas q0 q0.thetas q0.omegas (some 2)
      = .ok (solve2
          (pmA00 (q0.masses.getD 0 0) (q0.masses.getD 1 0) (q0.lengths.getD 0 0))
          (pmA01 (q0.masses.getD 1 0) (q0.lengths.getD 1 0)
            (q0.thetas.getD 0 0) (q0.thetas.getD 1 0))
          (pmA10 (q0.masses.getD 1 0) (q0.lengths.getD 0 0)
            (q0.thetas.getD 0 0) (q0.thetas.getD 1 0))
          (pmA11 (q0.masses.getD 1 0) (q0.lengths.getD 1 0))
          (pmB0 (q0.masses.getD 0 0) (q0.masses.getD 1 0) (q0.lengths.getD 1 0)
            (q0.thetas.getD 0 0) (q0.thetas.getD 1 0) (q0.omegas.getD 1 0)
            + 2 * (q0.thetas.getD 0 0 - q0.thetas.getD 1 0) / q0.lengths.getD 0 0)
          (pmB1 (q0.masses.getD 1 0) (q0.lengths.getD 0 0) (q0.lengths.getD 1 0)
            (q0.thetas.getD 0 0) (q0.thetas.getD 1 0) (q0.omegas.getD 0 0)
            - 2 * (q0.thetas.getD 0 0 - q0.thetas.getD 1 0) / q0.lengths.getD 1 0)) :=
  ⟨c3_torque_plumbing.1 pSemi pSemi.thetas pSemi.omegas (some 2),
   c3_torque_plumbing.2.1 q0 1 (some 2),
   (c3_torque_plumbing.2.2 q0 q0.thetas q0.omegas 2 rfl).1⟩

/-- C3 counterexample: on the double pendulum with `thetas = [pi/2, 0]` at
rest and torque 1, the pendulum.js solver returns the unadjusted
accelerations `[-9.81, 0]`, different from what the claimed `b`-adjustment
would produce; and in `part_000` a step with torque 1 equals the step with
no torque even though its solver would respond to the torque. -/
theorem c3_torque_counterexample :
    Pendulum.computeAlphas qjs qjs.thetas qjs.omegas (some 1) = .ok [-9.81, 0] ∧
    specTorqueAdjustedAlphas qjs qjs.thetas qjs.omegas 1
      = [(-19.62 + Real.pi / 2) / 2, -(Real.pi / 2)] ∧
    ((-19.62 + Real.pi / 2) / 2 : ℝ) ≠ -9.81 ∧
    P0.takeStep q0 0.005 (some 1) = P0.takeStep q0 0.005 none ∧
    P0.computeAlphas q0 q0.thetas q0.omegas (some 1)
      ≠ P0.computeAlphas q0 q0.thetas q0.omegas none := by
  have hsome : P0.computeAlphas q0 q0.thetas q0.omegas (some 1)
      = .ok [(-19.62 + Real.pi / 2) / 2, -(Real.pi / 2)] := by
    simp [P0.computeAlphas, q0, pmA00, pmA01, pmA10, pmA11, pmB0, pmB1, solve2,
      GRAVITY, Real.sin_pi_div_two, Real.cos_pi_div_two, Real.sin_zero]
    norm_num
    ring
  have hnone : P0.computeAlphas q0 q0.thetas q0.omegas none = .ok [-9.81, 0] := by
    simp [P0.computeAlphas, q0, pmA00, pmA01, pmA10, pmA11, pmB0, pmB1, solve2,
      GRAVITY, Real.sin_pi_div_two, Real.cos_pi_div_two, Real.sin_zero]
    norm_num
  refine ⟨?_, ?_, ?_, rfl, ?_⟩
  · simp [Pendulum.computeAlphas, qjs, pmA00, pmA01, pmA10, pmA11, pmB0, pmB1,
      solve2, GRAVITY, Real.sin_pi_div_two, Real.cos_pi_div_two, Real.sin_zero]
    norm_num
  · simp [specTorqueAdjustedAlphas, qjs, pmA00, pmA01, pmA10, pmA11, pmB0, pmB1,
      solve2, GRAVITY, Real.sin_pi_div_two, Real.cos_pi_div_two, Real.sin_zero]
    norm_num
    ring
  · intro h
    have hpi : Real.pi = 0 := by linarith
    exact Real.pi_ne_zero hpi
  · rw [hsome, hnone]
    intro h
    injection h with h
    have h2 := congrArg (fun l : List ℝ => l.getD 1 0) h
    simp at h2
    have := Real.pi_pos
    linarith

/-- C8: stepping any well-formed one- or two-link configuration with
`dt = 0` under any of the three schemes raises no error and leaves thetas,
omegas and time unchanged. -/
theorem c8_zero_dt_identity (p : Pendulum) (τ : Option ℝ)
    (m : IntegrationMethod) (hw : WF p)
    (hm : p.integration_method = some m)
    (hd : p.dimension = 1 ∨ p.dimension = 2) :
    (p.takeStep 0 τ).2 = none ∧
    (p.takeStep 0 τ).1.thetas = p.thetas ∧
    (p.takeStep 0 τ).1.omegas = p.omegas ∧
    (p.takeStep 0 τ).1.time = p.time := by
  obtain ⟨as1, ha1, hl1⟩ := computeAlphas_ok p p.thetas p.omegas τ hd
  have e2 : p.omegas.length = p.lengths.length := hw.2.2.2
  have e3 : p.thetas.length = p.lengths.length := hw.2.2.1
  have e4 : p.dimension = p.lengths.length := hw.1
  have hlt : as1.length = p.thetas.length := by omega
  have hlo : as1.length = p.omegas.length := by omega
  have hIdT : stepMap (fun i th => th) as1.length 0 p.thetas = p.thetas :=
    stepMap_eq_self _ _ (fun _ _ => rfl) 0 p.thetas
  have hIdO : stepMap (fun i om => om) as1.length 0 p.omegas = p.omegas :=
    stepMap_eq_self _ _ (fun _ _ => rfl) 0 p.omegas
  have hIdT2 : stepMap (fun i th => th) p.dimension 0 p.thetas = p.thetas :=
    stepMap_eq_self _ _ (fun _ _ => rfl) 0 p.thetas
  have hIdO2 : stepMap (fun i om => om) p.dimension 0 p.omegas = p.omegas :=
    stepMap_eq_self _ _ (fun _ _ => rfl) 0 p.omegas
  have hBT : buildList as1.length (fun i => p.thetas.getD i 0) = p.thetas :=
    buildList_eq_of _ _ _ hlt (fun i _ => rfl)
  have hBO : buildList as1.length (fun i => p.omegas.getD i 0) = p.omegas :=
    buildList_eq_of _ _ _ hlo (fun i _ => rfl)
  have hST : stepMap (fun i _ => p.thetas.getD i 0) as1.length 0 p.thetas
      = p.thetas := by
    apply stepMap_getD_self
    intro i _ _
    rfl
  simp only [List.getD_eq_getElem?_getD] at hBT hBO hST
  cases m <;>
    simp [Pendulum.takeStep, hm, ha1, hIdT, hIdO, hIdT2, hIdO2, hBT, hBO, hST]

/-- C8 witness: a zero-`dt` semi-implicit step on the single pendulum moves
nothing. -/
theorem c8_zero_dt_witness :
    (pSemi.takeStep 0 none).2 = none ∧
    (pSemi.takeStep 0 none).1.thetas = pSemi.thetas ∧
    (pSemi.takeStep 0 none).1.omegas = pSemi.omegas ∧
    (pSemi.takeStep 0 none).1.time = pSemi.time :=
  c8_zero_dt_identity pSemi none .semiImplicitEuler ⟨rfl, rfl, rfl, rfl⟩ rfl
    (Or.inl rfl)

/-- C4: on the double pendulum hanging at rest, `getEnergyNames` groups
labels by kind (`Kinetic 1, Kinetic 2, Potential 1, Potential 2, Total`)
while `getEnergy` lists values by link (`kin 1, pot 1, kin 2, pot 2,
total`): the entry at index 1 is labelled `Kinetic 2` but carries the value
`-9.81`, which is link 1's potential term, not link 2's kinetic term `0` —
the index-wise (name, value) pairing of the claim fails. -/
theorem c4_energy_label_mismatch :
    p4.getEnergyNames
      = ["Kinetic 1", "Kinetic 2", "Potential 1", "Potential 2", "Total energy"] ∧
    p4.getEnergy = [0, -9.81, 0, -19.62, -29.43] ∧
    Pendulum.potentialTerm p4 0 = -9.81 ∧
    Pendulum.kineticTerm p4 1 = 0 ∧
    ((-9.81 : ℝ)) ≠ 0 := by
  have hpos : p4.getCentersOfMass = [(0, -1), (0, -2)] := by
    simp [Pendulum.getCentersOfMass, Pendulum.getCartesianPositions, p4, posLoop,
      Real.sin_zero, Real.cos_zero]
    norm_num
  have hvel : p4.getCartesianVelocities = [(0, 0), (0, 0)] := by
    simp [Pendulum.getCartesianVelocities, p4, velLoop, Real.sin_zero,
      Real.cos_zero]
  refine ⟨rfl, ?_, ?_, ?_, by norm_num⟩
  · simp only [Pendulum.getEnergy]
    rw [hpos, hvel]
    simp [energyLoop, p4, GRAVITY]
    norm_num
  · simp only [Pendulum.potentialTerm]
    rw [hpos]
    simp [p4, GRAVITY]
  · simp only [Pendulum.kineticTerm]
    rw [hvel]
    simp [p4]

/-- C5: in pendulum.js, `getTotalEnergy` reads `energy.kinetic[i]` and
`energy.potential[i]` from the array returned by `getEnergy`, so it throws
a TypeError instead of returning the energy sum — already on the simplest
one-link configuration; the older `part_000` variant (whose `getEnergy`
still returns the `{kinetic, potential}` record) returns the sum of all its
energy components, here `9 + (-19.62) = -10.62`. -/
theorem c5_total_energy_type_error :
    Pendulum.getTotalEnergy pSemi
      = .error "TypeError: Cannot read properties of undefined" ∧
    P0.Pendulum.getTotalEnergy q1
      = q1.getEnergy.kinetic.sum + q1.getEnergy.potential.sum ∧
    P0.Pendulum.getTotalEnergy q1 = -10.62 := by
  have hE : q1.getEnergy = ⟨[9], [-19.62]⟩ := by
    simp [P0.Pendulum.getEnergy, P0.Pendulum.getCartesianPositions,
      P0.Pendulum.getCartesianVelocities, posLoop, velLoop, q1, GRAVITY,
      Real.sin_zero, Real.cos_zero, show List.range 1 = [0] from rfl]
    norm_num
  refine ⟨rfl, ?_, ?_⟩
  · simp only [P0.Pendulum.getTotalEnergy]
    rw [hE]
    simp [P0.sumLoop]
  · simp only [P0.Pendulum.getTotalEnergy]
    rw [hE]
    simp [P0.sumLoop]
    norm_num

end
